import Mathlib

/-!
Shallow embedding of `main.py`, an interactive console contact book: validated
value types (Name, Phone, Birthday), contact records, a name-keyed address
book, and the command-dispatch loop.  Python exceptions are modelled with an
explicit error type, the mutable global `notebook` by explicit state passing,
and `date.today()` by a `today` parameter.
-/

set_option autoImplicit false

namespace HW11

/-- The Python exception classes that can arise in `main.py`. -/
inductive PyError where
  | indexError
  | keyError
  | valueError
  | typeError
  | attributeError
deriving DecidableEq, Repr

/-- The `[0-9]` character class of the `re` module. -/
def pyDigit (c : Char) : Bool := decide ('0' ≤ c) && decide (c ≤ '9')

/-- The `[a-zA-Z]` character class of the `re` module. -/
def pyAlpha (c : Char) : Bool :=
  (decide ('a' ≤ c) && decide (c ≤ 'z')) || (decide ('A' ≤ c) && decide (c ≤ 'Z'))

/-- A run of `lo` to `hi` characters of the class `p`, covering the whole input:
the core of the patterns `^[0-9]{10}$` and `^[a-zA-Z]{1,20}$`. -/
def classRun (p : Char → Bool) (lo hi : Nat) (s : List Char) : Bool :=
  s.all p && decide (lo ≤ s.length) && decide (s.length ≤ hi)

/-- `re.match(r'^[...]{lo,hi}$', s)` is not None.  In Python's `re`, `$` matches
at the end of the string or just before one newline at the end of the string,
so a trailing `'\n'` is tolerated. -/
def reMatchLine (p : Char → Bool) (lo hi : Nat) (s : List Char) : Bool :=
  classRun p lo hi s || (s.getLast? == some '\n' && classRun p lo hi s.dropLast)

/-- The `Name` field: holds the validated string. -/
structure Name where
  value : String
deriving DecidableEq, Repr

/-- The check in `Name.value`'s setter: `re.match(r'^[a-zA-Z]{1,20}$', name)`. -/
def nameValid (s : String) : Bool := reMatchLine pyAlpha 1 20 s.data

/-- `Name(s)`: returns the field or raises `ValueError`. -/
def Name.make (s : String) : Except PyError Name :=
  if nameValid s then Except.ok ⟨s⟩ else Except.error PyError.valueError

/-- The `Phone` field: holds the validated string. -/
structure Phone where
  value : String
deriving DecidableEq, Repr

/-- The check in `Phone.value`'s setter: `re.match(r'^[0-9]{10}$', phone)`. -/
def phoneValid (s : String) : Bool := reMatchLine pyDigit 10 10 s.data

/-- `Phone(s)`: returns the field or raises `ValueError`. -/
def Phone.make (s : String) : Except PyError Phone :=
  if phoneValid s then Except.ok ⟨s⟩ else Except.error PyError.valueError

/-- A proleptic-Gregorian calendar date as `datetime.date` stores it. -/
structure Date where
  year : Nat
  month : Nat
  day : Nat
deriving DecidableEq, Repr

/-- The Gregorian leap-year rule, as `calendar.isleap` / `datetime` use it. -/
def isLeap (y : Nat) : Bool := y % 4 == 0 && (y % 100 != 0 || y % 400 == 0)

/-- 1 in a leap year, else 0. -/
def leapAdd (y : Nat) : Nat := if isLeap y then 1 else 0

/-- Length of month `m` in a year with February length `28 + l`. -/
def daysInMonthAux (l : Nat) : Nat → Nat
  | 1 => 31
  | 2 => 28 + l
  | 3 => 31
  | 4 => 30
  | 5 => 31
  | 6 => 30
  | 7 => 31
  | 8 => 31
  | 9 => 30
  | 10 => 31
  | 11 => 30
  | 12 => 31
  | _ => 0

/-- Length of month `m` of year `y`. -/
def daysInMonth (y m : Nat) : Nat := daysInMonthAux (leapAdd y) m

/-- Days of year `y` before month `m` starts, with `l` the February correction. -/
def daysBeforeMonthAux (l : Nat) : Nat → Nat
  | 1 => 0
  | 2 => 31
  | 3 => 59 + l
  | 4 => 90 + l
  | 5 => 120 + l
  | 6 => 151 + l
  | 7 => 181 + l
  | 8 => 212 + l
  | 9 => 243 + l
  | 10 => 273 + l
  | 11 => 304 + l
  | 12 => 334 + l
  | _ => 0

/-- Days of year `y` before month `m` starts. -/
def daysBeforeMonth (y m : Nat) : Nat := daysBeforeMonthAux (leapAdd y) m

/-- The argument check of the `datetime.date` constructor:
`date(year, month, day)` raises `ValueError` unless this holds. -/
def Date.valid (d : Date) : Bool :=
  decide (1 ≤ d.year) && decide (d.year ≤ 9999) && decide (1 ≤ d.month) &&
  decide (d.month ≤ 12) && decide (1 ≤ d.day) && decide (d.day ≤ daysInMonth d.year d.month)

/-- Leap years among `1..n`, as a count. -/
def leapCount (n : Nat) : Nat := n / 4 - n / 100 + n / 400

/-- `date.toordinal()`: the day number of the date, with 0001-01-01 as day 1.
Differences of ordinals are what `(a - b).days` computes for dates. -/
def Date.toOrdinal (d : Date) : Nat :=
  365 * (d.year - 1) + leapCount (d.year - 1) + daysBeforeMonth d.year d.month + d.day

/-- `datetime.date.__lt__`: lexicographic on (year, month, day). -/
def Date.lt (a b : Date) : Bool :=
  decide (a.year < b.year ∨ (a.year = b.year ∧
    (a.month < b.month ∨ (a.month = b.month ∧ a.day < b.day))))

/-- `datetime.date.__le__`: lexicographic on (year, month, day). -/
def Date.le (a b : Date) : Bool :=
  decide (a.year < b.year ∨ (a.year = b.year ∧
    (a.month < b.month ∨ (a.month = b.month ∧ a.day ≤ b.day))))

/-- Numeric value of a digit character. -/
def digitVal (c : Char) : Nat := c.toNat - '0'.toNat

/-- Numeric value of a digit string. -/
def digitsVal (cs : List Char) : Nat := cs.foldl (fun n c => 10 * n + digitVal c) 0

/-- `datetime.strptime(s, '%d.%m.%Y').date()`.  CPython's `_strptime` compiles
`%d` to `3[01]|[12]\x5cd|0[1-9]|[1-9]`, `%m` to `1[0-2]|0[1-9]|[1-9]` and `%Y`
to exactly four digits, so day and month may be written with one digit
(zero-padding is not required); the match must consume the whole string, and
the resulting triple must pass the `datetime` range checks (leap-year aware). -/
def strptimeDMY (s : List Char) : Option Date :=
  match s.dropWhile pyDigit with
  | '.' :: r2 =>
    match r2.dropWhile pyDigit with
    | '.' :: r4 =>
      if r4.all pyDigit && decide (r4.length = 4) &&
         decide (1 ≤ (s.takeWhile pyDigit).length) && decide ((s.takeWhile pyDigit).length ≤ 2) &&
         decide (1 ≤ digitsVal (s.takeWhile pyDigit)) && decide (digitsVal (s.takeWhile pyDigit) ≤ 31) &&
         decide (1 ≤ (r2.takeWhile pyDigit).length) && decide ((r2.takeWhile pyDigit).length ≤ 2) &&
         decide (1 ≤ digitsVal (r2.takeWhile pyDigit)) && decide (digitsVal (r2.takeWhile pyDigit) ≤ 12) &&
         Date.valid ⟨digitsVal r4, digitsVal (r2.takeWhile pyDigit), digitsVal (s.takeWhile pyDigit)⟩
      then some ⟨digitsVal r4, digitsVal (r2.takeWhile pyDigit), digitsVal (s.takeWhile pyDigit)⟩
      else none
    | _ => none
  | _ => none

/-- The `Birthday` field: stores the parsed date, not the string. -/
structure Birthday where
  date : Date
deriving DecidableEq, Repr

/-- `Birthday(s)`: parses with `strptime` or raises
`ValueError('Birthday must contain date in format DD.MM.YYYY!')`. -/
def Birthday.make (s : String) : Except PyError Birthday :=
  match strptimeDMY s.data with
  | some d => Except.ok ⟨d⟩
  | none => Except.error PyError.valueError

/-- A contact `Record`: one name, a list of phones, an optional birthday. -/
structure Record where
  name : Name
  phones : List Phone
  birthday : Option Birthday
deriving DecidableEq, Repr

/-- `Record.add_phone`: appends unless a phone with the same value is present;
returns the phone when it was appended, `None` otherwise. -/
def Record.add_phone (r : Record) (p : Phone) : Record × Option Phone :=
  if r.phones.any (fun q => q.value == p.value) then (r, none)
  else ({ r with phones := r.phones ++ [p] }, some p)

/-- `Record.del_phone`: removes the first phone with the same value, if any. -/
def Record.del_phone (r : Record) (p : Phone) : Record × Option Phone :=
  match r.phones.find? (fun q => q.value == p.value) with
  | some q => ({ r with phones := r.phones.erase q }, some q)
  | none => (r, none)

/-- `Record.add_birthday`: sets the birthday when the argument is truthy;
`None` leaves the record unchanged. -/
def Record.add_birthday (r : Record) (b : Option Birthday) : Record :=
  match b with
  | some b' => { r with birthday := some b' }
  | none => r

/-- `Record.days_to_birthday`, with `date.today()` made the explicit argument
`today`.  Reading `self.birthday.value` when no birthday is set raises
`AttributeError`; constructing `date(year, month, day)` out of range raises
`ValueError`; otherwise the day difference to this year's (or, when that
already passed, next year's) occurrence of the stored month/day is returned. -/
def Record.days_to_birthday (r : Record) (today : Date) : Except PyError Int :=
  match r.birthday with
  | none => Except.error PyError.attributeError
  | some b =>
    if Date.valid ⟨today.year, b.date.month, b.date.day⟩ then
      if Date.lt ⟨today.year, b.date.month, b.date.day⟩ today then
        if Date.valid ⟨today.year + 1, b.date.month, b.date.day⟩ then
          Except.ok ((Date.toOrdinal ⟨today.year + 1, b.date.month, b.date.day⟩ : Int) -
                     (Date.toOrdinal today : Int))
        else Except.error PyError.valueError
      else
        Except.ok ((Date.toOrdinal ⟨today.year, b.date.month, b.date.day⟩ : Int) -
                   (Date.toOrdinal today : Int))
    else Except.error PyError.valueError

/-- The `AddressBook`'s `data` dict: an insertion-ordered association list
from `record.name.value` to the record, as a Python 3.7+ dict iterates. -/
abbrev AddressBook := List (String × Record)

/-- `dict.get(key)`: the first (and, under the book's invariant, only)
record stored under the key. -/
def AddressBook.get (bk : AddressBook) (k : String) : Option Record :=
  (bk.find? (fun e => e.1 == k)).map Prod.snd

/-- `AddressBook.add_record`: inserts only when the name is not yet a key
(`if not self.data.get(...)`; a record is always truthy); returns the record
when inserted, `None` otherwise. -/
def AddressBook.add_record (bk : AddressBook) (r : Record) : AddressBook × Option Record :=
  match bk.get r.name.value with
  | some _ => (bk, none)
  | none => (bk ++ [(r.name.value, r)], some r)

/-- `AddressBook.del_record`: pops the entry when present. -/
def AddressBook.del_record (bk : AddressBook) (k : String) : AddressBook × Option Record :=
  match bk.get k with
  | some r => (bk.eraseP (fun e => e.1 == k), some r)
  | none => (bk, none)

/-- Overwriting the record stored under `k` in place, modelling that the
Python book aliases the record object mutated after insertion. -/
def AddressBook.setRecord (bk : AddressBook) (k : String) (r : Record) : AddressBook :=
  bk.map (fun e => if e.1 == k then (e.1, r) else e)

/-- The loop body of `AddressBook.iterator`: yields the value of each dict
entry while fewer than `n` were yielded. -/
def iterYields (n : Nat) : Nat → List (String × Record) → List Record
  | _, [] => []
  | count, e :: rest =>
    if count < n then e.2 :: iterYields n (count + 1) rest else iterYields n count rest

/-- `AddressBook.iterator(n)`, exhausted: the records the generator yields and
whether it raises afterwards.  The `for`/`else` runs the `else` on every exit
from the loop (there is no `break`), so the generator always ends in
`raise StopIteration`, which PEP 479 turns into a `RuntimeError` for the
consumer; the flag is therefore constantly `true`. -/
def AddressBook.iterator (bk : AddressBook) (n : Nat) : List Record × Bool :=
  (iterYields n 0 bk, true)

/-- The `input_error` decorator: turns `IndexError`, `KeyError` and
`ValueError` into user-facing strings; any other exception propagates. -/
def input_error (r : Except PyError String) : Except PyError String :=
  match r with
  | Except.error PyError.indexError => Except.ok "Please enter the contact like this:\nName: number"
  | Except.error PyError.keyError => Except.ok "This contact doesn't exist."
  | Except.error PyError.valueError => Except.ok "Phone must contain only digits and be 10 symbols long"
  | other => other

/-- `args[i]` on the tuple of positional arguments: raises `IndexError` when
out of range. -/
def getArg (args : List String) (i : Nat) : Except PyError String :=
  match args.get? i with
  | some s => Except.ok s
  | none => Except.error PyError.indexError

/-- The body of the `add_contact` handler (before the `input_error` wrapper),
with the global `notebook` passed and returned explicitly: builds
`Record(Name(args[0]), [Phone(args[1])])`, adds it to the book, then tries
`rec.add_birthday(Birthday(args[2]))` catching only `IndexError`.  A
`ValueError` from `Birthday` escapes after the record was already added; the
record mutated by `add_birthday` is the same object the book holds, so the
book entry is updated when the record was inserted. -/
def add_contact_body (args : List String) (bk : AddressBook) :
    AddressBook × Except PyError String :=
  match getArg args 0 with
  | Except.error e => (bk, Except.error e)
  | Except.ok a0 =>
    match Name.make a0 with
    | Except.error e => (bk, Except.error e)
    | Except.ok nm =>
      match getArg args 1 with
      | Except.error e => (bk, Except.error e)
      | Except.ok a1 =>
        match Phone.make a1 with
        | Except.error e => (bk, Except.error e)
        | Except.ok ph =>
          match AddressBook.add_record bk ⟨nm, [ph], none⟩ with
          | (bk1, inserted) =>
            match args.get? 2 with
            | none => (bk1, Except.ok ("Contact " ++ nm.value ++ " has added successfully."))
            | some a2 =>
              match Birthday.make a2 with
              | Except.error e => (bk1, Except.error e)
              | Except.ok b =>
                match inserted with
                | some _ =>
                  (AddressBook.setRecord bk1 nm.value
                     (Record.add_birthday ⟨nm, [ph], none⟩ (some b)),
                   Except.ok ("Contact " ++ nm.value ++ " has added successfully."))
                | none => (bk1, Except.ok ("Contact " ++ nm.value ++ " has added successfully."))

/-- The `add_contact` handler as the loop sees it: body plus `input_error`. -/
def add_contact (args : List String) (bk : AddressBook) :
    AddressBook × Except PyError String :=
  ((add_contact_body args bk).1, input_error (add_contact_body args bk).2)

/-- `str.title()` restricted to its behaviour on ASCII text. -/
def pyTitleGo : Bool → List Char → List Char
  | _, [] => []
  | prevCased, c :: cs =>
    (if pyAlpha c then (if prevCased then c.toLower else c.toUpper) else c) ::
      pyTitleGo (pyAlpha c) cs

/-- `str.title()` restricted to its behaviour on ASCII text. -/
def pyTitle (s : String) : String := ⟨pyTitleGo false s.data⟩

/-- The body of the `days_to_births` handler (before the `input_error`
wrapper): looks the name up, and on a hit formats the day count — where
`rec.days_to_birthday()` may raise. -/
def days_to_births_body (args : List String) (bk : AddressBook) (today : Date) :
    Except PyError String :=
  match getArg args 0 with
  | Except.error e => Except.error e
  | Except.ok a0 =>
    match AddressBook.get bk a0 with
    | some r =>
      match Record.days_to_birthday r today with
      | Except.error e => Except.error e
      | Except.ok d =>
        Except.ok (pyTitle r.name.value ++ " has " ++ toString d ++ " days to birthday.")
    | none => Except.ok ("Contact, with name " ++ a0 ++ " not in notebook.")

/-- The `days_to_births` handler as the loop sees it: body plus `input_error`. -/
def days_to_births (args : List String) (bk : AddressBook) (today : Date) :
    Except PyError String :=
  input_error (days_to_births_body args bk today)

/-- Tags for the nine handlers registered in `all_commands`. -/
inductive Command where
  | greeting
  | add_contact
  | change_number
  | print_phone
  | show_all
  | to_exit
  | del_number
  | del_contact
  | days_to_births
deriving DecidableEq, Repr

/-- The `all_commands` dict, in its insertion (= iteration) order. -/
def all_commands : List (Command × List String) :=
  [(Command.greeting, ["hello", "hi"]),
   (Command.add_contact, ["add", "new", "+"]),
   (Command.change_number, ["change"]),
   (Command.print_phone, ["phone", "number"]),
   (Command.show_all, ["show all", "show"]),
   (Command.to_exit, ["good bye", "close", "exit", ".", "bye"]),
   (Command.del_number, ["del", "delete", "-"]),
   (Command.del_contact, ["remove"]),
   (Command.days_to_births, ["days", "birthday"])]

/-- `str.lower()`, character by character (all aliases are ASCII). -/
def lowerChars (cs : List Char) : List Char := cs.map Char.toLower

/-- `user_input.lower().startswith(alias.lower())`. -/
def matchAlias (input a : String) : Bool :=
  List.isPrefixOf (lowerChars a.data) (lowerChars input.data)

/-- `s.strip().split()`: split on whitespace runs, no empty pieces. -/
def pySplit (s : String) : List String :=
  (s.trim.split Char.isWhitespace).filter (fun t => t != "")

/-- The inner loop of `command_parser`: the first alias of the entry that is a
(case-insensitive) prefix of the input. -/
def findAlias (input : String) : List String → Option String
  | [] => none
  | a :: rest => if matchAlias input a then some a else findAlias input rest

/-- The outer loop of `command_parser` over the `all_commands` entries. -/
def parseEntries (input : String) : List (Command × List String) → Option (Command × List String)
  | [] => none
  | (c, as) :: rest =>
    match findAlias input as with
    | some a => some (c, pySplit (input.drop a.length))
    | none => parseEntries input rest

/-- `command_parser`: the first handler one of whose aliases prefixes the
input, with the rest of the line split into arguments; `None` (falling off
the loop) when no alias matches. -/
def commandParser (input : String) : Option (Command × List String) :=
  parseEntries input all_commands

/-- One iteration of `main` up to the dispatch: the tuple unpacking
`command, parser_data = command_parser(user_input)` raises `TypeError` when
`command_parser` returned `None`, which ends the process. -/
def main_step (input : String) : Except PyError (Command × List String) :=
  match commandParser input with
  | some cp => Except.ok cp
  | none => Except.error PyError.typeError

/-- The two direct mutators of the book, for stating its invariant over
arbitrary operation sequences. -/
inductive BookOp where
  | add (r : Record)
  | del (k : String)

/-- Run one book operation, keeping only the resulting book. -/
def applyOp (bk : AddressBook) : BookOp → AddressBook
  | BookOp.add r => (AddressBook.add_record bk r).1
  | BookOp.del k => (AddressBook.del_record bk k).1

/-- Run a sequence of book operations. -/
def applyOps (bk : AddressBook) (ops : List BookOp) : AddressBook :=
  ops.foldl applyOp bk

/-- The book's invariant: each name string is a key of at most one entry. -/
def keysNodup (bk : AddressBook) : Prop := (bk.map Prod.fst).Nodup

/-- The phone strings the source accepts, stated from the amended claim's
words: exactly ten decimal digits, optionally followed by one trailing
newline (which the `$` anchor of `re.match` tolerates). -/
def IsPhoneString (s : String) : Prop :=
  (s.data.all pyDigit = true ∧ s.data.length = 10) ∨
  (∃ t : List Char, s.data = t ++ ['\n'] ∧ t.all pyDigit = true ∧ t.length = 10)

/-- The birthday strings the source accepts, stated from the amended claim's
words: day, month and year separated by dots and in that order, the day and
month written with one or two digits (zero-padding optional), the year with
exactly four, all together denoting a valid calendar date (leap-year
aware). -/
def IsBirthdayString (s : String) : Prop :=
  ∃ ds ms ys : List Char,
    s.data = ds ++ '.' :: (ms ++ '.' :: ys) ∧
    ds.all pyDigit = true ∧ 1 ≤ ds.length ∧ ds.length ≤ 2 ∧
    ms.all pyDigit = true ∧ 1 ≤ ms.length ∧ ms.length ≤ 2 ∧
    ys.all pyDigit = true ∧ ys.length = 4 ∧
    Date.valid ⟨digitsVal ys, digitsVal ms, digitsVal ds⟩ = true

/-- Sample record for the books below. -/
def recA : Record := ⟨⟨"Aaa"⟩, [⟨"1111111111"⟩], none⟩

/-- Sample record for the books below. -/
def recB : Record := ⟨⟨"Bbb"⟩, [⟨"2222222222"⟩], none⟩

/-- Sample record for the books below. -/
def recC : Record := ⟨⟨"Ccc"⟩, [⟨"3333333333"⟩], none⟩

/-- A book of size 3, as in the bounded-iteration example. -/
def bookThree : AddressBook := [("Aaa", recA), ("Bbb", recB), ("Ccc", recC)]

/-- A record named Alice, as first added. -/
def recAliceA : Record := ⟨⟨"Alice"⟩, [⟨"1234567890"⟩], none⟩

/-- A second, different record also named Alice. -/
def recAliceB : Record := ⟨⟨"Alice"⟩, [⟨"0987654321"⟩], none⟩

/-- A book already holding Alice. -/
def bookAlice : AddressBook := [("Alice", recAliceA)]

/-- A record with no birthday set. -/
def recBob : Record := ⟨⟨"Bob"⟩, [⟨"5555555555"⟩], none⟩

/-- A book holding a record with no birthday. -/
def bookBob : AddressBook := [("Bob", recBob)]

/-- A record whose birthday is 01.01.2000. -/
def recNewYear : Record := ⟨⟨"Ivan"⟩, [], some ⟨⟨2000, 1, 1⟩⟩⟩

/-- A record whose birthday is 29.02.2020, a leap day. -/
def recLeap : Record := ⟨⟨"Leap"⟩, [], some ⟨⟨2020, 2, 29⟩⟩⟩

/-! Helper lemmas. -/

theorem iterYields_eq (n : Nat) (l : List (String × Record)) :
    ∀ c, iterYields n c l = (l.map Prod.snd).take (n - c) := by
  induction l with
  | nil => intro c; simp [iterYields]
  | cons e rest ih =>
    intro c
    by_cases h : c < n
    · have h1 : n - c = (n - (c + 1)) + 1 := by omega
      simp [iterYields, h, ih (c + 1), h1]
    · have h1 : n - c = 0 := by omega
      simp [iterYields, h, ih c, h1]

theorem findAlias_eq_none (input : String) (as : List String)
    (h : ∀ a ∈ as, matchAlias input a = false) : findAlias input as = none := by
  induction as with
  | nil => rfl
  | cons a rest ih =>
    have ha := h a (List.mem_cons_self a rest)
    simp only [findAlias, ha, Bool.false_eq_true, if_false]
    exact ih fun x hx => h x (List.mem_cons_of_mem a hx)

theorem parseEntries_eq_none (input : String) (l : List (Command × List String))
    (h : ∀ ca ∈ l, ∀ a ∈ ca.2, matchAlias input a = false) : parseEntries input l = none := by
  induction l with
  | nil => rfl
  | cons ca rest ih =>
    obtain ⟨c, as⟩ := ca
    have h1 : findAlias input as = none :=
      findAlias_eq_none input as (h (c, as) (List.mem_cons_self _ _))
    simp only [parseEntries, h1]
    exact ih fun x hx => h x (List.mem_cons_of_mem _ hx)

theorem all_takeWhile_digits (l : List Char) : (l.takeWhile pyDigit).all pyDigit = true := by
  induction l with
  | nil => rfl
  | cons c cs ih =>
    rw [List.takeWhile_cons]
    by_cases h : pyDigit c
    · simp [h, ih]
    · simp [h]

theorem splitAt_dot (ds rest : List Char) (h : ds.all pyDigit = true) :
    (ds ++ '.' :: rest).takeWhile pyDigit = ds ∧
    (ds ++ '.' :: rest).dropWhile pyDigit = '.' :: rest := by
  induction ds with
  | nil =>
    constructor
    · rw [List.nil_append, List.takeWhile_cons]; rfl
    · rw [List.nil_append, List.dropWhile_cons]; rfl
  | cons c cs ih =>
    simp only [List.all_cons, Bool.and_eq_true] at h
    obtain ⟨hc, hcs⟩ := h
    obtain ⟨iht, ihd⟩ := ih hcs
    constructor
    · simp only [List.cons_append, List.takeWhile_cons, hc, if_true, iht]
    · simp only [List.cons_append, List.dropWhile_cons, hc, if_true, ihd]

theorem leapAdd_le_one (y : Nat) : leapAdd y ≤ 1 := by
  unfold leapAdd; split <;> omega

theorem daysInMonth_le_31 (y m : Nat) : daysInMonth y m ≤ 31 := by
  have := leapAdd_le_one y
  unfold daysInMonth daysInMonthAux
  split <;> omega

theorem strptime_sound (s : String) (d : Date) (h : strptimeDMY s.data = some d) :
    IsBirthdayString s := by
  unfold strptimeDMY at h
  split at h
  case h_2 => exact absurd h (by simp)
  case h_1 r2 heq1 =>
    split at h
    case h_2 => exact absurd h (by simp)
    case h_1 r4 heq2 =>
      split at h
      case isFalse => exact absurd h (by simp)
      case isTrue hcond =>
        simp only [Bool.and_eq_true, decide_eq_true_eq] at hcond
        obtain ⟨⟨⟨⟨⟨⟨⟨⟨⟨⟨hy4, hylen⟩, hd1⟩, hd2⟩, hd3⟩, hd4⟩, hm1⟩, hm2⟩, hm3⟩, hm4⟩, hvalid⟩ :=
          hcond
        refine ⟨s.data.takeWhile pyDigit, r2.takeWhile pyDigit, r4, ?_, ?_, hd1, hd2, ?_,
          hm1, hm2, hy4, hylen, hvalid⟩
        · conv_lhs => rw [← List.takeWhile_append_dropWhile (p := pyDigit) (l := s.data)]
          rw [heq1]
          congr 1
          conv_lhs => rw [← List.takeWhile_append_dropWhile (p := pyDigit) (l := r2)]
          rw [heq2]
        · exact all_takeWhile_digits s.data
        · exact all_takeWhile_digits r2

theorem strptime_complete (s : String) (h : IsBirthdayString s) :
    ∃ d, strptimeDMY s.data = some d := by
  obtain ⟨ds, ms, ys, heq, hdall, hd1, hd2, hmall, hm1, hm2, hyall, hylen, hvalid⟩ := h
  have hsp1 := splitAt_dot ds (ms ++ '.' :: ys) hdall
  have hsp2 := splitAt_dot ms ys hmall
  have hvx := hvalid
  simp only [Date.valid, Bool.and_eq_true, decide_eq_true_eq] at hvx
  obtain ⟨⟨⟨⟨⟨hy1, hy2⟩, hmo1⟩, hmo2⟩, hda1⟩, hda2⟩ := hvx
  refine ⟨⟨digitsVal ys, digitsVal ms, digitsVal ds⟩, ?_⟩
  rw [heq]
  simp only [strptimeDMY, hsp1.1, hsp1.2, hsp2.1, hsp2.2]
  have hdim := daysInMonth_le_31 (digitsVal ys) (digitsVal ms)
  have hcond : (ys.all pyDigit && decide (ys.length = 4) &&
      decide (1 ≤ ds.length) && decide (ds.length ≤ 2) &&
      decide (1 ≤ digitsVal ds) && decide (digitsVal ds ≤ 31) &&
      decide (1 ≤ ms.length) && decide (ms.length ≤ 2) &&
      decide (1 ≤ digitsVal ms) && decide (digitsVal ms ≤ 12) &&
      Date.valid ⟨digitsVal ys, digitsVal ms, digitsVal ds⟩) = true := by
    simp only [Bool.and_eq_true, decide_eq_true_eq]
    exact ⟨⟨⟨⟨⟨⟨⟨⟨⟨⟨hyall, hylen⟩, hd1⟩, hd2⟩, hda1⟩, by omega⟩, hm1⟩, hm2⟩, hmo1⟩, hmo2⟩, hvalid⟩
  rw [hcond]
  rfl

set_option maxHeartbeats 1000000 in
theorem leapCount_succ (n : Nat) : leapCount (n + 1) = leapCount n + leapAdd (n + 1) := by
  unfold leapCount leapAdd isLeap
  split
  · rename_i h
    simp only [Bool.and_eq_true, Bool.or_eq_true, beq_iff_eq, bne_iff_ne, ne_eq] at h
    omega
  · rename_i h
    simp only [Bool.and_eq_true, Bool.or_eq_true, beq_iff_eq, bne_iff_ne, ne_eq] at h
    rw [not_and_or] at h
    omega

theorem leapCount_mono {m n : Nat} (h : m ≤ n) : leapCount m ≤ leapCount n := by
  induction n with
  | zero =>
    have h0 : m = 0 := by omega
    rw [h0]
  | succ k ih =>
    rcases Nat.lt_or_ge m (k + 1) with h1 | h2
    · have ha := ih (by omega)
      have hs := leapCount_succ k
      omega
    · have h0 : m = k + 1 := by omega
      rw [h0]

theorem dbmAux_mono_strict (l ma mb da db : Nat) (h1 : 1 ≤ ma) (h2 : ma < mb) (h3 : mb ≤ 12)
    (hda : da ≤ daysInMonthAux l ma) (hdb : 1 ≤ db) :
    daysBeforeMonthAux l ma + da ≤ daysBeforeMonthAux l mb + db := by
  have h4 : ma ≤ 11 := by omega
  interval_cases ma <;> interval_cases mb <;>
    simp only [daysBeforeMonthAux, daysInMonthAux] at hda ⊢ <;> omega

theorem dbmAux_dim_le (l m : Nat) (h1 : 1 ≤ m) (h2 : m ≤ 12) :
    daysBeforeMonthAux l m + daysInMonthAux l m ≤ 365 + l := by
  interval_cases m <;> simp only [daysBeforeMonthAux, daysInMonthAux] <;> omega

theorem toOrdinal_le_year_end (a : Date) (ha : a.valid = true) :
    a.toOrdinal ≤ 365 * a.year + leapCount a.year := by
  simp only [Date.valid, Bool.and_eq_true, decide_eq_true_eq] at ha
  obtain ⟨⟨⟨⟨⟨hy1, hy2⟩, hm1⟩, hm2⟩, hd1⟩, hd2⟩ := ha
  have hstep : leapCount a.year = leapCount (a.year - 1) + leapAdd a.year := by
    have hls := leapCount_succ (a.year - 1)
    have hy : a.year - 1 + 1 = a.year := by omega
    rw [hy] at hls
    omega
  have hdim : daysBeforeMonthAux (leapAdd a.year) a.month +
      daysInMonthAux (leapAdd a.year) a.month ≤ 365 + leapAdd a.year :=
    dbmAux_dim_le (leapAdd a.year) a.month hm1 hm2
  unfold Date.toOrdinal daysBeforeMonth
  unfold daysInMonth at hd2
  omega

theorem toOrdinal_mono (a b : Date) (ha : a.valid = true) (hb : b.valid = true)
    (hle : Date.le a b = true) : a.toOrdinal ≤ b.toOrdinal := by
  have hay := toOrdinal_le_year_end a ha
  simp only [Date.valid, Bool.and_eq_true, decide_eq_true_eq] at ha hb
  obtain ⟨⟨⟨⟨⟨hay1, hay2⟩, ham1⟩, ham2⟩, had1⟩, had2⟩ := ha
  obtain ⟨⟨⟨⟨⟨hby1, hby2⟩, hbm1⟩, hbm2⟩, hbd1⟩, hbd2⟩ := hb
  simp only [Date.le, decide_eq_true_eq] at hle
  rcases hle with hyy | ⟨hyeq, hrest⟩
  · have h1 : 365 * a.year + leapCount a.year ≤
        365 * (b.year - 1) + leapCount (b.year - 1) := by
      have hmono := leapCount_mono (show a.year ≤ b.year - 1 by omega)
      have hmul : 365 * a.year ≤ 365 * (b.year - 1) :=
        Nat.mul_le_mul_left 365 (show a.year ≤ b.year - 1 by omega)
      omega
    have h2 : 365 * (b.year - 1) + leapCount (b.year - 1) + 1 ≤ b.toOrdinal := by
      unfold Date.toOrdinal
      omega
    omega
  · unfold Date.toOrdinal daysBeforeMonth
    rw [hyeq]
    rcases hrest with hmm | ⟨hmeq, hdd⟩
    · have hstep := dbmAux_mono_strict (leapAdd b.year) a.month b.month a.day b.day
        ham1 hmm hbm2 (by rw [← hyeq]; unfold daysInMonth at had2; exact had2) hbd1
      omega
    · rw [hmeq]
      omega

theorem phoneValid_iff (s : String) : phoneValid s = true ↔ IsPhoneString s := by
  unfold phoneValid reMatchLine classRun IsPhoneString
  simp only [Bool.or_eq_true, Bool.and_eq_true, beq_iff_eq, decide_eq_true_eq]
  constructor
  · rintro (⟨⟨hall, hlo⟩, hhi⟩ | ⟨hlast, ⟨hall, hlo⟩, hhi⟩)
    · exact Or.inl ⟨hall, by omega⟩
    · rcases List.eq_nil_or_concat s.data with h0 | ⟨t, c, ht⟩
      · rw [h0] at hlast; simp at hlast
      · rw [List.concat_eq_append] at ht
        have hc : c = '\n' := by
          rw [ht, List.getLast?_concat] at hlast
          exact (Option.some.injEq _ _).mp hlast
        have hdt : s.data.dropLast = t := by rw [ht, List.dropLast_concat]
        refine Or.inr ⟨t, ?_, ?_, ?_⟩
        · rw [ht, hc]
        · rw [← hdt]; exact hall
        · rw [← hdt]; omega
  · rintro (⟨hall, hlen⟩ | ⟨t, ht, hall, hlen⟩)
    · exact Or.inl ⟨⟨hall, by omega⟩, by omega⟩
    · refine Or.inr ⟨?_, ⟨?_, ?_⟩, ?_⟩
      · rw [ht, List.getLast?_concat]
      · rw [ht, List.dropLast_concat]; exact hall
      · rw [ht, List.dropLast_concat]; omega
      · rw [ht, List.dropLast_concat]; omega

theorem get_eq_none_iff (bk : AddressBook) (k : String) :
    AddressBook.get bk k = none ↔ k ∉ bk.map Prod.fst := by
  simp only [AddressBook.get, Option.map_eq_none', List.find?_eq_none, List.mem_map]
  constructor
  · rintro h ⟨e, he, hk⟩
    exact h e he (by simp [hk])
  · intro h e he hk
    exact h ⟨e, he, by simpa using hk⟩

theorem keysNodup_applyOp (bk : AddressBook) (op : BookOp) (h : keysNodup bk) :
    keysNodup (applyOp bk op) := by
  cases op with
  | add r =>
    simp only [applyOp, AddressBook.add_record]
    cases hg : AddressBook.get bk r.name.value with
    | some r0 => exact h
    | none =>
      have hk : r.name.value ∉ bk.map Prod.fst := (get_eq_none_iff bk _).mp hg
      simp only [keysNodup, List.map_append, List.map_cons, List.map_nil] at h ⊢
      simp [List.nodup_append, h, hk]
  | del k =>
    simp only [applyOp, AddressBook.del_record]
    cases hg : AddressBook.get bk k with
    | some r0 =>
      exact List.Nodup.sublist (List.Sublist.map Prod.fst (List.eraseP_sublist bk)) h
    | none => exact h

theorem keysNodup_applyOps (bk : AddressBook) (ops : List BookOp) (h : keysNodup bk) :
    keysNodup (applyOps bk ops) := by
  induction ops generalizing bk with
  | nil => exact h
  | cons op rest ih => exact ih (applyOp bk op) (keysNodup_applyOp bk op h)

/-! The claims. -/

/-- C1: `boundedIterate(n)` is claimed to yield `min(n, size)` records and then
end gracefully.  The generator does yield exactly the first `min(n, size)`
records, but its `for`/`else` then always raises `StopIteration` (a
`RuntimeError` for the consumer under PEP 479): on the size-3 book with
`n = 10` it yields the 3 records and raises instead of ending. -/
theorem C1_iterator_raises :
    AddressBook.iterator bookThree 10 = ([recA, recB, recC], true) ∧
    ∀ (bk : AddressBook) (n : Nat),
      (AddressBook.iterator bk n).1 = (bk.map Prod.snd).take n ∧
      (AddressBook.iterator bk n).2 = true := by
  refine ⟨rfl, fun bk n => ⟨?_, rfl⟩⟩
  simpa using iterYields_eq n bk 0

/-- C2 (amended): on an input line that starts with no registered alias,
`command_parser` falls off its loops and returns `None`; `main`'s tuple
unpacking of that `None` then raises `TypeError`, terminating the process.
No "unrecognized command" message exists in the source. -/
theorem C2_no_match_crash (input : String)
    (h : ∀ ca ∈ all_commands, ∀ a ∈ ca.2, matchAlias input a = false) :
    commandParser input = none ∧ main_step input = Except.error PyError.typeError := by
  have hp : commandParser input = none := parseEntries_eq_none input all_commands h
  refine ⟨hp, ?_⟩
  unfold main_step
  rw [hp]

/-- C2 witness: the concrete input "qwerty" matches no alias, the parser
returns `None`, and the loop dies with `TypeError`. -/
theorem C2_no_match_crash_witness :
    commandParser "qwerty" = none ∧ main_step "qwerty" = Except.error PyError.typeError :=
  C2_no_match_crash "qwerty" (by decide)

/-- C2 counterexample: the claim promises an "unrecognized command" result
message and a continuing loop; on "qwerty" the dispatcher instead produces no
handler at all and the loop's unpacking raises `TypeError`. -/
theorem C2_counterexample :
    commandParser "qwerty" = none ∧ main_step "qwerty" = Except.error PyError.typeError := by
  exact ⟨rfl, rfl⟩

/-- C3 (amended): calling `add_contact` with a valid phone and the name of a
record already in the book leaves the book unchanged (the add is rejected),
but the handler still returns the ordinary "has added successfully." message:
the rejection is silent, no distinct duplicate-name message exists. -/
theorem C3_duplicate_add_reports_success (bk : AddressBook) (name phone : String) (r : Record)
    (hn : nameValid name = true) (hp : phoneValid phone = true)
    (hdup : AddressBook.get bk name = some r) :
    add_contact [name, phone] bk =
      (bk, Except.ok ("Contact " ++ name ++ " has added successfully.")) := by
  simp only [add_contact, add_contact_body, getArg, List.get?, Name.make, hn, if_true,
    Phone.make, hp, AddressBook.add_record, hdup, input_error]

/-- C3 witness: adding "Alice" with a fresh valid phone to a book that already
holds "Alice" changes nothing and still reports success. -/
theorem C3_duplicate_add_reports_success_witness :
    add_contact ["Alice", "9999999999"] bookAlice =
      (bookAlice, Except.ok "Contact Alice has added successfully.") :=
  C3_duplicate_add_reports_success bookAlice "Alice" "9999999999" recAliceA rfl rfl rfl

/-- C3 counterexample: the claim demands a distinct duplicate-name message on
adding "Alice" twice; the handler instead answers with the normal success
message (while silently leaving the book unchanged). -/
theorem C3_counterexample :
    add_contact ["Alice", "0987654321"] bookAlice =
      (bookAlice, Except.ok "Contact Alice has added successfully.") := rfl

/-- C4 (amended): invoking the days-to-birthday handler on the name of a
record with no birthday set raises `AttributeError` (reading
`self.birthday.value` on `None`), which the `input_error` wrapper does not
catch (it catches only `IndexError`, `KeyError` and `ValueError`): the
exception escapes the handler unhandled instead of becoming a "no birthday
set" message. -/
theorem C4_no_birthday_unhandled (bk : AddressBook) (name : String) (r : Record) (today : Date)
    (hget : AddressBook.get bk name = some r) (hbd : r.birthday = none) :
    days_to_births [name] bk today = Except.error PyError.attributeError := by
  simp only [days_to_births, days_to_births_body, getArg, List.get?, hget,
    Record.days_to_birthday, hbd, input_error]

/-- C4 witness: asking for Bob's days-to-birthday when Bob has no birthday
escapes with `AttributeError`. -/
theorem C4_no_birthday_unhandled_witness :
    days_to_births ["Bob"] bookBob ⟨2023, 6, 15⟩ = Except.error PyError.attributeError :=
  C4_no_birthday_unhandled bookBob "Bob" recBob ⟨2023, 6, 15⟩ rfl rfl

/-- C4 counterexample: the claim says the handler yields a recoverable "no
birthday set" message and never an unhandled exception; for the record "Bob"
without a birthday the handler instead lets `AttributeError` escape. -/
theorem C4_counterexample :
    days_to_births ["Bob"] bookBob ⟨2023, 6, 15⟩ = Except.error PyError.attributeError := rfl

/-- C5 (amended): `Birthday` construction succeeds exactly for strings in
day.month.year order where day and month are one- or two-digit numerals
(zero-padding is optional: `strptime`'s `%d` and `%m` also accept single
digits), the year has exactly four digits, and the three values denote a
valid calendar date (leap-year aware); every other string fails with the
`InvalidBirthday` `ValueError`.  In particular "29.02.2020" succeeds,
"29.02.2021" fails, and "1.1.2000" succeeds just like "01.01.2000". -/
theorem C5_birthday_validation :
    (∀ s : String,
      ((∃ b, Birthday.make s = Except.ok b) ↔ IsBirthdayString s)
      ∧ (Birthday.make s = Except.error PyError.valueError ∨
         ∃ b, Birthday.make s = Except.ok b))
    ∧ Birthday.make "29.02.2020" = Except.ok ⟨⟨2020, 2, 29⟩⟩
    ∧ Birthday.make "29.02.2021" = Except.error PyError.valueError
    ∧ Birthday.make "1.1.2000" = Except.ok ⟨⟨2000, 1, 1⟩⟩
    ∧ Birthday.make "01.01.2000" = Except.ok ⟨⟨2000, 1, 1⟩⟩ := by
  refine ⟨fun s => ⟨⟨?_, ?_⟩, ?_⟩, rfl, rfl, rfl, rfl⟩
  · rintro ⟨b, hb⟩
    unfold Birthday.make at hb
    cases hs : strptimeDMY s.data with
    | none => rw [hs] at hb; exact absurd hb (by simp)
    | some d => exact strptime_sound s d hs
  · intro h
    obtain ⟨d, hd⟩ := strptime_complete s h
    exact ⟨⟨d⟩, by unfold Birthday.make; rw [hd]⟩
  · cases hs : strptimeDMY s.data with
    | none => exact Or.inl (by unfold Birthday.make; rw [hs])
    | some d => exact Or.inr ⟨⟨d⟩, by unfold Birthday.make; rw [hs]⟩

/-- C5 counterexample: the claim requires zero-padded two-digit day and month,
so "1.1.2000" ought to be rejected; the source accepts it, because CPython's
`strptime` patterns for `%d` and `%m` also match single digits. -/
theorem C5_counterexample : Birthday.make "1.1.2000" = Except.ok ⟨⟨2000, 1, 1⟩⟩ := rfl

/-- C6 (amended): for a record with a birthday and a date `today`, whenever
`date(today.year, bmonth, bday)` is constructible — and, when that date
precedes `today`, `date(today.year + 1, bmonth, bday)` too —
`days_to_birthday` returns the non-negative day count to the occurrence of
the stored month/day this year or (when this year's already passed) next
year, which is 0 exactly when today is that month/day.  When the needed
`date(...)` is not constructible (a Feb-29 birthday against a non-leap year)
the method instead raises `ValueError`. -/
theorem C6_next_occurrence (r : Record) (b : Birthday) (today : Date)
    (hb : r.birthday = some b)
    (ht : today.valid = true)
    (h1 : Date.valid ⟨today.year, b.date.month, b.date.day⟩ = true)
    (h2 : Date.lt ⟨today.year, b.date.month, b.date.day⟩ today = true →
          Date.valid ⟨today.year + 1, b.date.month, b.date.day⟩ = true) :
    ∃ occ : Date, occ.month = b.date.month ∧ occ.day = b.date.day ∧ occ.valid = true ∧
      Date.le today occ = true ∧
      (if Date.lt ⟨today.year, b.date.month, b.date.day⟩ today
       then occ.year = today.year + 1 else occ.year = today.year) ∧
      Record.days_to_birthday r today =
        Except.ok ((occ.toOrdinal : Int) - (today.toOrdinal : Int)) ∧
      0 ≤ (occ.toOrdinal : Int) - (today.toOrdinal : Int) ∧
      (today.month = b.date.month → today.day = b.date.day →
        (occ.toOrdinal : Int) - (today.toOrdinal : Int) = 0) := by
  by_cases hlt : Date.lt ⟨today.year, b.date.month, b.date.day⟩ today = true
  · -- this year's occurrence already passed: next year's is used
    have hv2 := h2 hlt
    refine ⟨⟨today.year + 1, b.date.month, b.date.day⟩, rfl, rfl, hv2, ?_, ?_, ?_, ?_, ?_⟩
    · simp only [Date.le, decide_eq_true_eq]
      omega
    · simp only [hlt, if_true]
    · unfold Record.days_to_birthday
      rw [hb]
      simp only [h1, hlt, hv2, if_true]
    · have hmono := toOrdinal_mono today ⟨today.year + 1, b.date.month, b.date.day⟩ ht hv2
        (by simp only [Date.le, decide_eq_true_eq]; omega)
      omega
    · intro hmeq hdeq
      exfalso
      simp only [Date.lt, decide_eq_true_eq] at hlt
      simp only [← hmeq, ← hdeq] at hlt
      omega
  · -- this year's occurrence is today or later
    have hlt' : Date.lt ⟨today.year, b.date.month, b.date.day⟩ today = false :=
      Bool.eq_false_iff.mpr hlt
    have hltp : ¬(b.date.month < today.month ∨
        (b.date.month = today.month ∧ b.date.day < today.day)) := by
      intro hc
      exact hlt (decide_eq_true (Or.inr ⟨rfl, hc⟩))
    have hlef : Date.le today ⟨today.year, b.date.month, b.date.day⟩ = true :=
      decide_eq_true (Or.inr ⟨rfl, by
        show today.month < b.date.month ∨ (today.month = b.date.month ∧ today.day ≤ b.date.day)
        omega⟩)
    refine ⟨⟨today.year, b.date.month, b.date.day⟩, rfl, rfl, h1, hlef, ?_, ?_, ?_, ?_⟩
    · simp [hlt']
    · unfold Record.days_to_birthday
      rw [hb]
      simp [h1, hlt']
    · have hmono := toOrdinal_mono today ⟨today.year, b.date.month, b.date.day⟩ ht h1 hlef
      omega
    · intro hmeq hdeq
      have heq : today = ⟨today.year, b.date.month, b.date.day⟩ := by
        cases today
        simp only [← hmeq, ← hdeq]
      rw [← heq]
      omega

/-- C6 witness: for the birthday 01.01.2000 evaluated at today = 31.12.2099
the next occurrence is 01.01.2100 and the method returns 1 day. -/
theorem C6_next_occurrence_witness :
    (∃ occ : Date, occ.month = 1 ∧ occ.day = 1 ∧ occ.valid = true ∧
      Date.le ⟨2099, 12, 31⟩ occ = true ∧
      (if Date.lt ⟨2099, 1, 1⟩ ⟨2099, 12, 31⟩ then occ.year = 2099 + 1 else occ.year = 2099) ∧
      Record.days_to_birthday recNewYear ⟨2099, 12, 31⟩ =
        Except.ok ((occ.toOrdinal : Int) - ((⟨2099, 12, 31⟩ : Date).toOrdinal : Int)) ∧
      0 ≤ (occ.toOrdinal : Int) - ((⟨2099, 12, 31⟩ : Date).toOrdinal : Int) ∧
      ((12 : Nat) = 1 → (31 : Nat) = 1 →
        (occ.toOrdinal : Int) - ((⟨2099, 12, 31⟩ : Date).toOrdinal : Int) = 0)) ∧
    Record.days_to_birthday recNewYear ⟨2099, 12, 31⟩ = Except.ok 1 :=
  ⟨C6_next_occurrence recNewYear ⟨⟨2000, 1, 1⟩⟩ ⟨2099, 12, 31⟩ rfl rfl rfl
    (fun _ => rfl), rfl⟩

/-- C6 counterexample: the claim promises a non-negative day count for every
record with a birthday and every date; for the birthday 29.02.2020 evaluated
at today = 01.01.2021, `date(2021, 2, 29)` does not exist and the method
raises `ValueError` instead of returning a number. -/
theorem C6_counterexample :
    Record.days_to_birthday recLeap ⟨2021, 1, 1⟩ = Except.error PyError.valueError := rfl

/-- C7: each name string keys at most one record over every sequence of
add/delete operations from the empty book; adding a record under an existing
name leaves the book completely unchanged and signals "already present" by
returning `None`; in particular adding "Alice" twice keeps exactly the first
record. -/
theorem C7_at_most_one_record :
    (∀ ops : List BookOp, keysNodup (applyOps [] ops)) ∧
    (∀ (bk : AddressBook) (r r0 : Record),
       AddressBook.get bk r.name.value = some r0 → AddressBook.add_record bk r = (bk, none)) ∧
    applyOps [] [BookOp.add recAliceA, BookOp.add recAliceB] = [("Alice", recAliceA)] ∧
    AddressBook.add_record [("Alice", recAliceA)] recAliceB = ([("Alice", recAliceA)], none) := by
  refine ⟨?_, ?_, rfl, rfl⟩
  · intro ops
    exact keysNodup_applyOps [] ops (by simp [keysNodup])
  · intro bk r r0 hget
    simp [AddressBook.add_record, hget]

/-- C9: adding a phone twice (the second time through any `Phone` object with
the same digit string) is a silent no-op, and the record then holds exactly
one phone with that value, provided it held at most one before (which holds
for every record built through `add_phone`). -/
theorem C9_add_phone_idempotent (r : Record) (p q : Phone) (hq : q.value = p.value)
    (hinv : (r.phones.filter (fun x => x.value == p.value)).length ≤ 1) :
    Record.add_phone (Record.add_phone r p).1 q = ((Record.add_phone r p).1, none) ∧
    ((Record.add_phone r p).1.phones.filter (fun x => x.value == p.value)).length = 1 := by
  by_cases h : r.phones.any (fun x => x.value == p.value)
  · have hr1 : (Record.add_phone r p).1 = r := by simp [Record.add_phone, h]
    obtain ⟨x, hx, hxv⟩ := List.any_eq_true.mp h
    have hmem : x ∈ r.phones.filter (fun y => y.value == p.value) :=
      List.mem_filter.mpr ⟨hx, hxv⟩
    have hpos : 0 < (r.phones.filter (fun y => y.value == p.value)).length :=
      List.length_pos.mpr (List.ne_nil_of_mem hmem)
    constructor
    · rw [hr1]
      simp [Record.add_phone, hq, h]
    · rw [hr1]
      omega
  · have hr1 : (Record.add_phone r p).1 = { r with phones := r.phones ++ [p] } := by
      simp [Record.add_phone, h]
    have hnone : ∀ x ∈ r.phones, ¬(x.value == p.value) = true := by
      intro x hx hv
      exact h (List.any_eq_true.mpr ⟨x, hx, hv⟩)
    constructor
    · rw [hr1]
      have hany : ({ r with phones := r.phones ++ [p] } : Record).phones.any
          (fun x => x.value == q.value) = true := by
        refine List.any_eq_true.mpr ⟨p, ?_, ?_⟩
        · simp
        · simp [hq]
      simp [Record.add_phone, hany, hq]
    · rw [hr1]
      have hfil : r.phones.filter (fun x => x.value == p.value) = [] :=
        List.filter_eq_nil_iff.mpr hnone
      simp [List.filter_append, hfil]

/-- C9 witness: adding the phone 1234567890 twice to a fresh record leaves
exactly one entry, and the second add returns `None`. -/
theorem C9_add_phone_idempotent_witness :
    Record.add_phone (Record.add_phone recBob ⟨"1234567890"⟩).1 ⟨"1234567890"⟩ =
      ((Record.add_phone recBob ⟨"1234567890"⟩).1, none) ∧
    ((Record.add_phone recBob ⟨"1234567890"⟩).1.phones.filter
      (fun x => x.value == "1234567890")).length = 1 :=
  C9_add_phone_idempotent recBob ⟨"1234567890"⟩ ⟨"1234567890"⟩ rfl (by decide)

/-- C10: when `add_contact` gets a fresh valid name, a valid phone, and a
third argument that is not a parseable date, the record (without birthday) is
nonetheless inserted — the `ValueError` from `Birthday` fires only after
`add_record` ran — and the wrapper renders that `ValueError` as the
phone-format message, the single text it uses for every `ValueError`. -/
theorem C10_partial_add_phone_message (bk : AddressBook) (name phone bstr : String)
    (hn : nameValid name = true) (hp : phoneValid phone = true)
    (hnew : AddressBook.get bk name = none)
    (hb : Birthday.make bstr = Except.error PyError.valueError) :
    add_contact [name, phone, bstr] bk =
      (bk ++ [(name, ⟨⟨name⟩, [⟨phone⟩], none⟩)],
       Except.ok "Phone must contain only digits and be 10 symbols long") := by
  simp only [add_contact, add_contact_body, getArg, List.get?, Name.make, hn, if_true,
    Phone.make, hp, AddressBook.add_record, hnew, hb, input_error]

/-- C8 (amended): `Phone` construction succeeds, storing the string
unchanged, exactly for strings of ten decimal digits or of ten decimal digits
followed by one trailing newline (tolerated by the `$` anchor of `re.match`);
every other string fails with the `InvalidPhone` `ValueError`. -/
theorem C8_phone_validation :
    (∀ s : String,
      ((∃ p, Phone.make s = Except.ok p ∧ p.value = s) ↔ IsPhoneString s)
      ∧ (Phone.make s = Except.error PyError.valueError ∨
         ∃ p, Phone.make s = Except.ok p ∧ p.value = s))
    ∧ Phone.make "1234567890" = Except.ok ⟨"1234567890"⟩
    ∧ Phone.make "123456789" = Except.error PyError.valueError
    ∧ Phone.make "12345678901" = Except.error PyError.valueError
    ∧ Phone.make "123456789a" = Except.error PyError.valueError := by
  refine ⟨fun s => ⟨?_, ?_⟩, rfl, rfl, rfl, rfl⟩
  · rw [← phoneValid_iff]
    constructor
    · rintro ⟨p, hp, hv⟩
      unfold Phone.make at hp
      by_cases h : phoneValid s
      · exact h
      · simp [h] at hp
    · intro h
      exact ⟨⟨s⟩, by simp [Phone.make, h], rfl⟩
  · by_cases h : phoneValid s
    · exact Or.inr ⟨⟨s⟩, by simp [Phone.make, h], rfl⟩
    · exact Or.inl (by simp [Phone.make, h])

/-- C8 counterexample: the claim says every string that is not exactly ten
digits fails; yet "1234567890\n" — eleven characters, one of them a
newline — is accepted, because `$` matches before a trailing newline. -/
theorem C8_counterexample :
    Phone.make "1234567890\n" = Except.ok ⟨"1234567890\n"⟩ := rfl

/-- C10 witness: `add Alice 1234567890 tomorrow` on the empty book inserts
Alice without a birthday and answers with the phone-format message. -/
theorem C10_partial_add_phone_message_witness :
    add_contact ["Alice", "1234567890", "tomorrow"] [] =
      ([("Alice", ⟨⟨"Alice"⟩, [⟨"1234567890"⟩], none⟩)],
       Except.ok "Phone must contain only digits and be 10 symbols long") :=
  C10_partial_add_phone_message [] "Alice" "1234567890" "tomorrow" rfl rfl rfl rfl

end HW11
